import Mathlib

/-!
Verification of the ralph-loop review-orchestration engine.

This file gives a shallow embedding, in Lean 4, of the core operations of the
ralph-loop service and proves the specified properties about them:

* the guardrail evaluator `check_requires_approval` (src/app/api/builds.py),
* the token-bucket rate limiter `_check_rate_limit`
  (src/app/services/review_dispatcher.py),
* the deduplicating review queue `enqueue_review`
  (src/app/services/review_dispatcher.py), together with the conditional
  unique index `ix_ralph_review_queue_unique_pending` declared in
  src/app/models/review.py and created by the schema migration,
* the dispatch cycle `dispatch_pending_reviews`
  (src/app/services/review_dispatcher.py),
* the MCP tool handlers `handle_submit_inspection` and `handle_approve_build`
  (src/app/mcp/server.py),
* the ingestion endpoint `ingest_build` (src/app/api/builds.py).

Database tables are modelled as Lean lists of records; each SQL statement of
the source becomes the corresponding pure list transformation.  Rows are
identified by their unique keys (`build_id` for builds, the integer `id` for
queue entries).  Wall-clock audit columns (`updated_at`, `dispatched_at`) and
free-text informational response fields that no modelled operation reads are
elided.  Timestamps that the code orders by or does arithmetic on are kept:
`created_at` as a Nat counter for queue ordering, and rate-limiter time as a
rational number of seconds.  Python float token arithmetic is modelled with
exact rationals.
-/

namespace RalphLoop

/-! ## Python string membership (`sub in s`)

Python `sub in s` is substring containment.  `hasPrefixL s sub` holds when
`sub` is a leading segment of `s`; `hasInfixL s sub` when `sub` occurs
contiguously anywhere in `s`. -/

def hasPrefixL : List Char → List Char → Bool
  | _, [] => true
  | [], _ :: _ => false
  | c :: cs, d :: ds => c == d && hasPrefixL cs ds

def hasInfixL : List Char → List Char → Bool
  | [], sub => sub.isEmpty
  | c :: cs, sub => hasPrefixL (c :: cs) sub || hasInfixL cs sub

/-- Python `sub in s` on strings. -/
def strContains (s sub : String) : Bool :=
  hasInfixL s.toList sub.toList

/-! ## Guardrail evaluator (src/app/api/builds.py lines 86-136) -/

/-- FORBIDDEN_PATHS from src/app/api/builds.py. -/
def FORBIDDEN_PATHS : List String :=
  ["backend/app/core/security",
   "backend/app/services/billing",
   "backend/app/core/config.py",
   ".env",
   "secrets"]

/-- DEPENDENCY_FILES from src/app/api/builds.py. -/
def DEPENDENCY_FILES : List String :=
  ["requirements.txt",
   "package.json",
   "package-lock.json",
   "pnpm-lock.yaml",
   "yarn.lock",
   "Cargo.toml",
   "Cargo.lock",
   "go.mod",
   "go.sum"]

/-- The `reasons` list built by `check_requires_approval`: one reason per
matched forbidden path, then one per matched dependency file, in source
order. -/
def approvalReasons (changed_files : List String) : List String :=
  (FORBIDDEN_PATHS.filter
      (fun forbidden => changed_files.any (fun f => strContains f forbidden))).map
    (fun forbidden => "Protected area: " ++ forbidden)
  ++ (DEPENDENCY_FILES.filter
      (fun dep => changed_files.any (fun f => strContains f dep))).map
    (fun dep => "Dependency change: " ++ dep)

/-- check_requires_approval from src/app/api/builds.py lines 107-136.
Python `if not changed_files` is true for both `None` and the empty list. -/
def check_requires_approval (changed_files : Option (List String))
    (diff : Option String) : Bool × Option String :=
  match changed_files with
  | none => (false, none)
  | some fs =>
    if fs.isEmpty then (false, none)
    else
      let reasons := approvalReasons fs
      if reasons.isEmpty then (false, none)
      else (true, some (String.intercalate "; " reasons))

/-! ## Theorems for claims C8 and C10 -/

lemma approvalReasons_eq_nil_iff (fs : List String) :
    approvalReasons fs = [] ↔
      ¬((∃ forbidden ∈ FORBIDDEN_PATHS, ∃ f ∈ fs, strContains f forbidden = true) ∨
        (∃ dep ∈ DEPENDENCY_FILES, ∃ f ∈ fs, strContains f dep = true)) := by
  unfold approvalReasons
  rw [List.append_eq_nil, List.map_eq_nil_iff, List.map_eq_nil_iff,
    List.filter_eq_nil_iff, List.filter_eq_nil_iff]
  simp only [List.any_eq_true, decide_eq_true_eq, not_or, not_exists, not_and]

/-- C8: the guardrail evaluator is a pure function of the changed-file list;
its verdict is `true` exactly when some forbidden path or some dependency
manifest occurs in a changed path, in which case the reason string is the
"; "-join of one human-readable reason per matched rule; concretely, the file
`backend/app/core/security/auth.py` trips the protected-area rule with a
reason naming the protected path, `README.md` trips nothing, and a change
touching both a protected path and `package.json` yields the two reasons
joined by "; ". -/
theorem check_requires_approval_rules :
    (∀ (fs : List String) (d : Option String),
        (check_requires_approval (some fs) d).1 = true ↔
          ((∃ forbidden ∈ FORBIDDEN_PATHS, ∃ f ∈ fs, strContains f forbidden = true) ∨
           (∃ dep ∈ DEPENDENCY_FILES, ∃ f ∈ fs, strContains f dep = true))) ∧
    (∀ (fs : List String) (d : Option String),
        (check_requires_approval (some fs) d).1 = true →
          (check_requires_approval (some fs) d).2 =
            some (String.intercalate "; " (approvalReasons fs))) ∧
    (∀ d : Option String,
        check_requires_approval (some ["backend/app/core/security/auth.py"]) d =
          (true, some "Protected area: backend/app/core/security")) ∧
    (∀ d : Option String,
        check_requires_approval (some ["README.md"]) d = (false, none)) ∧
    (∀ d : Option String,
        check_requires_approval
            (some ["backend/app/core/security/auth.py", "package.json"]) d =
          (true, some
            "Protected area: backend/app/core/security; Dependency change: package.json")) := by
  refine ⟨?_, ?_, ?_, ?_, ?_⟩
  · intro fs d
    unfold check_requires_approval
    by_cases hfs : fs.isEmpty
    · have hnil : fs = [] := by simpa using hfs
      subst hnil
      simp
    · simp only [hfs, if_false]
      by_cases hr : (approvalReasons fs).isEmpty
      · have hnil : approvalReasons fs = [] := by simpa using hr
        have := (approvalReasons_eq_nil_iff fs).mp hnil
        simp only [hr, if_true]
        constructor
        · intro h; exact absurd h (by simp)
        · intro h; exact absurd h this
      · have hne : approvalReasons fs ≠ [] := by
          intro h; exact hr (by simp [h])
        have hR : ((∃ forbidden ∈ FORBIDDEN_PATHS, ∃ f ∈ fs, strContains f forbidden = true) ∨
            (∃ dep ∈ DEPENDENCY_FILES, ∃ f ∈ fs, strContains f dep = true)) := by
          by_contra hcon
          exact hne ((approvalReasons_eq_nil_iff fs).mpr hcon)
        simp only [hr, if_false]
        exact ⟨fun _ => hR, fun _ => rfl⟩
  · intro fs d h
    unfold check_requires_approval at h ⊢
    by_cases hfs : fs.isEmpty
    · simp [hfs] at h
    · by_cases hr : (approvalReasons fs).isEmpty
      · simp [hfs, hr] at h
      · simp [hfs, hr]
  · intro d; rfl
  · intro d; rfl
  · intro d; rfl

/-- C10: the guardrail verdict does not depend on the diff argument at all —
for any changed-file list the result is identical under any two diffs — and a
`none` or empty changed-file list yields `(false, none)` regardless of the
diff. -/
theorem check_requires_approval_ignores_diff :
    (∀ (fs : Option (List String)) (d1 d2 : Option String),
        check_requires_approval fs d1 = check_requires_approval fs d2) ∧
    (∀ d : Option String, check_requires_approval none d = (false, none)) ∧
    (∀ d : Option String, check_requires_approval (some []) d = (false, none)) := by
  refine ⟨?_, fun _ => rfl, fun _ => rfl⟩
  intro fs d1 d2
  cases fs <;> rfl

/-! ## Token-bucket rate limiter
(src/app/services/review_dispatcher.py lines 62-118, src/app/config.py)

The bucket lives in Redis as a `tokens:last_update` pair; it is modelled as an
`Option BucketState` (`none` = key absent).  Python float arithmetic on tokens
and timestamps is modelled with exact rationals. -/

/-- Settings.REVIEW_RATE_LIMIT from src/app/config.py (reviews per hour). -/
def REVIEW_RATE_LIMIT : Nat := 4

/-- Settings.REVIEW_RATE_WINDOW from src/app/config.py (seconds). -/
def REVIEW_RATE_WINDOW : Nat := 3600

/-- Token bucket capacity used by `_check_rate_limit`. -/
def capacity : ℚ := REVIEW_RATE_LIMIT

/-- Refill rate used by `_check_rate_limit`: REVIEW_RATE_LIMIT / REVIEW_RATE_WINDOW
tokens per second. -/
def refill_rate : ℚ := (REVIEW_RATE_LIMIT : ℚ) / (REVIEW_RATE_WINDOW : ℚ)

/-- The persisted bucket value: current tokens and the timestamp of the last
persisted update, both as stored by `_check_rate_limit`. -/
structure BucketState where
  tokens : ℚ
  last_update : ℚ
deriving DecidableEq, Repr

/-- Tokens available after the refill step of `_check_rate_limit`:
`min(capacity, tokens + elapsed * refill_rate)` with `elapsed = now - last_update`. -/
def availTokens (b : BucketState) (now : ℚ) : ℚ :=
  min capacity (b.tokens + (now - b.last_update) * refill_rate)

/-- The Redis branch of `_check_rate_limit`: read the bucket (initialising a
full bucket stamped `now` when the key is absent), refill, and admit iff at
least one token is available, consuming it and persisting; a refusal persists
nothing.  Returns (admitted, stored bucket after the call). -/
def checkRateLimit (bucket : Option BucketState) (now : ℚ) :
    Bool × Option BucketState :=
  let b := match bucket with
    | some b => b
    | none => ⟨capacity, now⟩
  let refilled := availTokens b now
  if 1 ≤ refilled then (true, some ⟨refilled - 1, now⟩)
  else (false, bucket)

/-- C9: the dispatcher rate limiter is a token bucket of capacity 4 refilling
at 4/3600 tokens per second: a call admits exactly when the refilled token
count `min(capacity, tokens + elapsed * refill_rate)` is at least 1, and then
consumes one token.  From a fresh (full) bucket at time 0, four immediate
requests all admit, the fifth immediate request is refused leaving the stored
bucket at 0 tokens, and 900 seconds later exactly 1 token has accrued, so a
request at time 900 admits again. -/
theorem rate_limiter_token_bucket :
    (∀ (b : BucketState) (now : ℚ),
        (checkRateLimit (some b) now).1 = true ↔ 1 ≤ availTokens b now) ∧
    checkRateLimit none 0 = (true, some ⟨3, 0⟩) ∧
    checkRateLimit (some ⟨3, 0⟩) 0 = (true, some ⟨2, 0⟩) ∧
    checkRateLimit (some ⟨2, 0⟩) 0 = (true, some ⟨1, 0⟩) ∧
    checkRateLimit (some ⟨1, 0⟩) 0 = (true, some ⟨0, 0⟩) ∧
    checkRateLimit (some ⟨0, 0⟩) 0 = (false, some ⟨0, 0⟩) ∧
    availTokens ⟨0, 0⟩ 900 = 1 ∧
    checkRateLimit (some ⟨0, 0⟩) 900 = (true, some ⟨0, 900⟩) := by
  refine ⟨?_, ?_, ?_, ?_, ?_, ?_, ?_, ?_⟩
  · intro b now
    unfold checkRateLimit
    by_cases h : 1 ≤ availTokens b now
    · simp [h]
    · simp [h]
  all_goals
    (simp [checkRateLimit, availTokens, capacity, refill_rate,
      REVIEW_RATE_LIMIT, REVIEW_RATE_WINDOW]; try norm_num)

/-! ## Review queue and enqueue_review
(src/app/services/review_dispatcher.py lines 286-331,
src/app/models/review.py lines 68-77, alembic migration 001)

The ralph_review_queue table is a list of entries; `id` plays the primary-key
role (a Nat counter in place of a uuid), `created_at` is a logical clock.
Inserts are additionally guarded by the conditional unique index
`ix_ralph_review_queue_unique_pending` on
(project_id, task_id, queue_type, status) restricted to status = PENDING;
PostgreSQL treats NULL task_id values as distinct, so rows without a task never
conflict.  A violating INSERT raises and stores nothing (the statements run
without an enclosing transaction, so the preceding DELETE, when it ran,
persists).  Python truthiness of `task_id` (None and "" are falsy) is
`strTruthy`. -/

structure ReviewQueueEntry where
  id : Nat
  build_pk : String
  build_id : String
  project_id : String
  task_id : Option String
  queue_type : String
  priority : Int
  status : String
  created_at : Nat
deriving DecidableEq, Repr

/-- Python truthiness of an optional string: None and "" are falsy. -/
def strTruthy : Option String → Bool
  | none => false
  | some s => !s.isEmpty

structure QueueState where
  entries : List ReviewQueueEntry
  next_id : Nat
  clock : Nat
deriving DecidableEq, Repr

def emptyQueue : QueueState := ⟨[], 0, 0⟩

/-- Arguments of one `enqueue_review` call. -/
structure EnqueueReq where
  build_pk : String
  build_id : String
  project_id : String
  task_id : Option String
  queue_type : String
  priority : Int
deriving DecidableEq, Repr

/-- The WHERE clause shared by the dedup DELETE and the conditional unique
index: the row belongs to the given (project_id, task_id, queue_type) key and
is PENDING. -/
def matchesPendingKey (project_id : String) (task_id : Option String)
    (queue_type : String) (e : ReviewQueueEntry) : Bool :=
  e.project_id == project_id && e.task_id == task_id &&
    e.queue_type == queue_type && e.status == "PENDING"

/-- Whether inserting a PENDING row with this key would violate
`ix_ralph_review_queue_unique_pending`.  NULL task_id values never conflict
(PostgreSQL unique indexes treat NULLs as distinct). -/
def pendingConflict (entries : List ReviewQueueEntry) (project_id : String)
    (task_id : Option String) (queue_type : String) : Bool :=
  match task_id with
  | none => false
  | some t => entries.any (matchesPendingKey project_id (some t) queue_type)

/-- enqueue_review from src/app/services/review_dispatcher.py lines 286-331:
when task_id is truthy, DELETE every PENDING row of the same
(project_id, task_id, queue_type); then INSERT the new row as PENDING, which
the unique index may reject (first component: error message, if any). -/
def enqueue_review (st : QueueState) (r : EnqueueReq) :
    Option String × QueueState :=
  let afterDelete :=
    if strTruthy r.task_id then
      st.entries.filter
        (fun e => !(matchesPendingKey r.project_id r.task_id r.queue_type e))
    else st.entries
  if pendingConflict afterDelete r.project_id r.task_id r.queue_type then
    (some "duplicate key value violates ix_ralph_review_queue_unique_pending",
     { st with entries := afterDelete })
  else
    (none,
     { entries := afterDelete ++
         [{ id := st.next_id, build_pk := r.build_pk, build_id := r.build_id,
            project_id := r.project_id, task_id := r.task_id,
            queue_type := r.queue_type, priority := r.priority,
            status := "PENDING", created_at := st.clock }],
       next_id := st.next_id + 1, clock := st.clock + 1 })

/-- Run a sequence of enqueue calls. -/
def runEnqueues (st : QueueState) (reqs : List EnqueueReq) : QueueState :=
  reqs.foldl (fun s r => (enqueue_review s r).2) st

/-- Number of PENDING entries for a concrete (project_id, task_id, queue_type)
key with a non-null task. -/
def pendingKeyCount (entries : List ReviewQueueEntry) (p t q : String) : Nat :=
  (entries.filter (matchesPendingKey p (some t) q)).length

/-! ## Theorems for claim C1 -/

lemma pendingKeyCount_enqueue (st : QueueState) (r : EnqueueReq)
    (p t q : String) (h : pendingKeyCount st.entries p t q ≤ 1) :
    pendingKeyCount (enqueue_review st r).2.entries p t q ≤ 1 := by
  unfold enqueue_review
  set afterDelete :=
    (if strTruthy r.task_id then
      st.entries.filter
        (fun e => !(matchesPendingKey r.project_id r.task_id r.queue_type e))
    else st.entries) with hAD
  have hsub : List.Sublist afterDelete st.entries := by
    rw [hAD]
    by_cases hT : strTruthy r.task_id
    · simp only [hT, if_true]
      exact List.filter_sublist st.entries
    · simp only [hT, if_false]
      exact List.Sublist.refl st.entries
  have hADle : pendingKeyCount afterDelete p t q ≤ 1 := by
    refine le_trans ?_ h
    exact (hsub.filter (matchesPendingKey p (some t) q)).length_le
  by_cases hc :
      pendingConflict afterDelete r.project_id r.task_id r.queue_type = true
  · simp only [hc, if_true]
    exact hADle
  · rw [Bool.not_eq_true] at hc
    simp only [hc, Bool.false_eq_true, if_false]
    unfold pendingKeyCount
    rw [List.filter_append, List.length_append]
    by_cases hm : matchesPendingKey p (some t) q
        { id := st.next_id, build_pk := r.build_pk, build_id := r.build_id,
          project_id := r.project_id, task_id := r.task_id,
          queue_type := r.queue_type, priority := r.priority,
          status := "PENDING", created_at := st.clock } = true
    · have hfields : (r.project_id = p ∧ r.task_id = some t) ∧ r.queue_type = q := by
        simpa [matchesPendingKey, Bool.and_eq_true, beq_iff_eq] using hm
      obtain ⟨⟨hp, ht⟩, hq⟩ := hfields
      have hzero : afterDelete.filter (matchesPendingKey p (some t) q) = [] := by
        rw [List.filter_eq_nil_iff]
        intro e he
        have : afterDelete.any
            (matchesPendingKey r.project_id (some t) r.queue_type) = false := by
          have := hc
          unfold pendingConflict at this
          rwa [ht] at this
        have hnone := List.any_eq_false.mp this e he
        rw [hp, hq] at hnone
        simpa using hnone
      rw [hzero]
      simp [hm]
    · rw [Bool.not_eq_true] at hm
      have hone : (List.filter (matchesPendingKey p (some t) q)
          [{ id := st.next_id, build_pk := r.build_pk, build_id := r.build_id,
             project_id := r.project_id, task_id := r.task_id,
             queue_type := r.queue_type, priority := r.priority,
             status := "PENDING", created_at := st.clock }]) = [] := by
        simp [List.filter, hm]
      rw [hone]
      simpa using hADle

lemma runEnqueues_pending_unique (reqs : List EnqueueReq) :
    ∀ (st : QueueState),
      (∀ p t q, pendingKeyCount st.entries p t q ≤ 1) →
      ∀ p t q, pendingKeyCount (runEnqueues st reqs).entries p t q ≤ 1 := by
  induction reqs with
  | nil => intro st h; exact h
  | cons r rs ih =>
    intro st h p t q
    have hstep : ∀ p t q,
        pendingKeyCount (enqueue_review st r).2.entries p t q ≤ 1 :=
      fun p t q => pendingKeyCount_enqueue st r p t q (h p t q)
    exact ih (enqueue_review st r).2 hstep p t q

/-- C1: starting from an empty queue, any sequence of enqueue calls with
non-null task ids leaves at most one PENDING entry per
(project_id, task_id, queue_type) key; in particular, enqueuing two CODE
entries for (project p1, task t1) with priorities 5 then 8 leaves exactly one
entry, which is PENDING with priority 8 (the second build superseded the
first). -/
theorem enqueue_review_dedup :
    (∀ (reqs : List EnqueueReq), (∀ r ∈ reqs, r.task_id ≠ none) →
        ∀ p t q, pendingKeyCount (runEnqueues emptyQueue reqs).entries p t q ≤ 1) ∧
    ((runEnqueues emptyQueue
        [⟨"pk1", "b1", "p1", some "t1", "CODE", 5⟩,
         ⟨"pk2", "b2", "p1", some "t1", "CODE", 8⟩]).entries.map
        (fun e => (e.build_id, e.priority, e.status)) = [("b2", 8, "PENDING")]) ∧
    pendingKeyCount (runEnqueues emptyQueue
        [⟨"pk1", "b1", "p1", some "t1", "CODE", 5⟩,
         ⟨"pk2", "b2", "p1", some "t1", "CODE", 8⟩]).entries "p1" "t1" "CODE" = 1 := by
  refine ⟨?_, by decide, by decide⟩
  intro reqs _ p t q
  exact runEnqueues_pending_unique reqs emptyQueue (by intro p t q; simp [pendingKeyCount, emptyQueue]) p t q

/-- Witness for C1: the general deduplication statement applied to the
two-request scenario. -/
theorem enqueue_review_dedup_witness :
    (∀ r ∈ ([⟨"pk1", "b1", "p1", some "t1", "CODE", 5⟩,
             ⟨"pk2", "b2", "p1", some "t1", "CODE", 8⟩] : List EnqueueReq),
        r.task_id ≠ none) ∧
    pendingKeyCount (runEnqueues emptyQueue
        [⟨"pk1", "b1", "p1", some "t1", "CODE", 5⟩,
         ⟨"pk2", "b2", "p1", some "t1", "CODE", 8⟩]).entries "p1" "t1" "CODE" ≤ 1 :=
  ⟨by decide,
   enqueue_review_dedup.1
     [⟨"pk1", "b1", "p1", some "t1", "CODE", 5⟩,
      ⟨"pk2", "b2", "p1", some "t1", "CODE", 8⟩]
     (by decide) "p1" "t1" "CODE"⟩

/-! ## Rate-limited dispatcher
(src/app/services/review_dispatcher.py lines 120-283)

`_fetch_pending_reviews` is the SQL SELECT: PENDING rows ordered by priority
descending then created_at ascending, limited.  `_dispatch_review` is the
UPDATE to DISPATCHED plus the appended ralph_review_dispatches audit row; its
exception path (DB failure marking the row FAILED) is environmental and not
reachable in the pure model, so dispatch always succeeds here.
`dispatch_pending_reviews` consults the token bucket before each entry and
stops the cycle at the first refusal, reporting every remaining fetched entry
as rate-limited.  The whole cycle is modelled at one instant `now`. -/

structure DispatchRecord where
  review_queue_pk : Nat
  build_id : String
  inspector_model : String
  dispatch_method : String
  api_response_code : Option Int
  api_response_body : Option String
deriving DecidableEq, Repr

structure DispatcherState where
  entries : List ReviewQueueEntry
  bucket : Option BucketState
  dispatches : List DispatchRecord
deriving DecidableEq, Repr

structure DispatchStats where
  dispatched : Nat
  failed : Nat
  rate_limited : Nat
deriving DecidableEq, Repr

/-- ORDER BY rq.priority DESC, rq.created_at ASC. -/
def fetchLE (a b : ReviewQueueEntry) : Bool :=
  b.priority < a.priority ||
    (a.priority == b.priority && a.created_at ≤ b.created_at)

/-- _fetch_pending_reviews from src/app/services/review_dispatcher.py. -/
def _fetch_pending_reviews (entries : List ReviewQueueEntry) (limit : Nat) :
    List ReviewQueueEntry :=
  ((entries.filter (fun e => e.status == "PENDING")).mergeSort fetchLE).take limit

/-- Status of the queue row with primary key `i`. -/
def statusOf (entries : List ReviewQueueEntry) (i : Nat) : Option String :=
  (entries.find? (fun e => e.id == i)).map (fun e => e.status)

/-- _dispatch_review (success path): mark the row DISPATCHED and append the
audit record with inspector gpt-5.2, method mcp_poll, response 200. -/
def _dispatch_review (st : DispatcherState) (review : ReviewQueueEntry) :
    DispatcherState :=
  { st with
    entries := st.entries.map
      (fun e => if e.id == review.id then { e with status := "DISPATCHED" } else e),
    dispatches := st.dispatches ++
      [⟨review.id, review.build_id, "gpt-5.2", "mcp_poll", some 200, some "dispatched"⟩] }

/-- The per-entry loop of dispatch_pending_reviews: check the rate limit, stop
the whole cycle on refusal counting the rest as rate-limited, otherwise
dispatch and continue. -/
def dispatchLoop (now : ℚ) :
    List ReviewQueueEntry → DispatcherState → Nat → Nat →
      DispatchStats × DispatcherState
  | [], st, dispatched, failed => (⟨dispatched, failed, 0⟩, st)
  | review :: rest, st, dispatched, failed =>
    let c := checkRateLimit st.bucket now
    if c.1 then
      dispatchLoop now rest (_dispatch_review { st with bucket := c.2 } review)
        (dispatched + 1) failed
    else
      (⟨dispatched, failed, (review :: rest).length⟩, st)

/-- dispatch_pending_reviews from src/app/services/review_dispatcher.py
lines 232-283. -/
def dispatch_pending_reviews (st : DispatcherState) (now : ℚ)
    (batch_size : Nat) : DispatchStats × DispatcherState :=
  let pending := _fetch_pending_reviews st.entries batch_size
  if pending.isEmpty then (⟨0, 0, 0⟩, st)
  else dispatchLoop now pending st 0 0

/-! ## Theorems for claim C4 -/

lemma find?_id_map (entries : List ReviewQueueEntry)
    (f : ReviewQueueEntry → ReviewQueueEntry)
    (hf : ∀ e, (f e).id = e.id) (j : Nat) :
    (entries.map f).find? (fun e => e.id == j) =
      (entries.find? (fun e => e.id == j)).map f := by
  induction entries with
  | nil => rfl
  | cons a l ih =>
    rw [List.map_cons, List.find?_cons, List.find?_cons, hf a]
    cases ha : (a.id == j) <;> simp [ha, ih]

lemma statusOf_dispatch (st : DispatcherState) (review : ReviewQueueEntry)
    (j : Nat) :
    statusOf (_dispatch_review st review).entries j =
      if j = review.id then (statusOf st.entries j).map (fun _ => "DISPATCHED")
      else statusOf st.entries j := by
  unfold _dispatch_review statusOf
  simp only
  rw [find?_id_map _ _ (by intro e; by_cases h : (e.id == review.id) = true <;> simp [h]) j]
  cases hfind : st.entries.find? (fun e => e.id == j) with
  | none => by_cases hj : j = review.id <;> simp [hj]
  | some e =>
    have heid : e.id = j := by simpa using List.find?_some hfind
    by_cases hj : j = review.id
    · simp [hj, heid]
    · simp [hj, heid]

lemma find?_self_of_nodup (entries : List ReviewQueueEntry)
    (hn : (entries.map (fun e => e.id)).Nodup) (e : ReviewQueueEntry)
    (he : e ∈ entries) :
    entries.find? (fun x => x.id == e.id) = some e := by
  induction entries with
  | nil => cases he
  | cons a l ih =>
    rw [List.map_cons, List.nodup_cons] at hn
    rcases List.mem_cons.mp he with rfl | he2
    · exact List.find?_cons_of_pos _ (by simp)
    · have hne : ¬ (a.id == e.id) = true := by
        simp only [beq_iff_eq]
        intro hEq
        exact hn.1 (hEq ▸ List.mem_map_of_mem _ he2)
      rw [List.find?_cons_of_neg _ (by simpa using hne)]
      exact ih hn.2 he2

lemma checkRateLimit_at_now (k : Nat) (now : ℚ)
    (hk : k ≤ REVIEW_RATE_LIMIT) :
    checkRateLimit (some ⟨(k : ℚ), now⟩) now =
      if 1 ≤ k then (true, some ⟨(k : ℚ) - 1, now⟩)
      else (false, some ⟨(k : ℚ), now⟩) := by
  have hcap : ((k : ℚ)) ≤ capacity := by
    unfold capacity
    exact_mod_cast hk
  unfold checkRateLimit availTokens
  simp only [sub_self, zero_mul, add_zero]
  rw [min_eq_right hcap]
  by_cases h1 : 1 ≤ k
  · have : (1 : ℚ) ≤ (k : ℚ) := by exact_mod_cast h1
    simp [h1, this]
  · have : ¬ (1 : ℚ) ≤ (k : ℚ) := by exact_mod_cast h1
    simp [h1, this]

lemma dispatchLoop_cons (now : ℚ) (r : ReviewQueueEntry)
    (rest : List ReviewQueueEntry) (st : DispatcherState) (d fl : Nat) :
    dispatchLoop now (r :: rest) st d fl =
      if (checkRateLimit st.bucket now).1 then
        dispatchLoop now rest
          (_dispatch_review { st with bucket := (checkRateLimit st.bucket now).2 } r)
          (d + 1) fl
      else (⟨d, fl, (r :: rest).length⟩, st) := rfl

lemma dispatchLoop_spec (now : ℚ) :
    ∀ (l : List ReviewQueueEntry) (k : Nat) (st : DispatcherState) (d fl : Nat),
      st.bucket = some ⟨(k : ℚ), now⟩ →
      k ≤ REVIEW_RATE_LIMIT →
      k < l.length →
      (l.map (fun e => e.id)).Nodup →
      (dispatchLoop now l st d fl).1.dispatched = d + k ∧
      (dispatchLoop now l st d fl).1.failed = fl ∧
      (dispatchLoop now l st d fl).1.rate_limited = l.length - k ∧
      (∀ j, j ∉ (l.take k).map (fun e => e.id) →
        statusOf (dispatchLoop now l st d fl).2.entries j = statusOf st.entries j) ∧
      (∀ e ∈ l.take k, statusOf st.entries e.id = some "PENDING" →
        statusOf (dispatchLoop now l st d fl).2.entries e.id = some "DISPATCHED") := by
  intro l
  induction l with
  | nil =>
    intro k st d fl _ _ hlen _
    exact absurd hlen (by simp)
  | cons r rest ih =>
    intro k st d fl hbucket hk hlen hnodup
    rw [List.map_cons, List.nodup_cons] at hnodup
    match k with
    | 0 =>
      have hc : checkRateLimit st.bucket now =
          (false, some ⟨((0 : Nat) : ℚ), now⟩) := by
        rw [hbucket, checkRateLimit_at_now 0 now (by simp [REVIEW_RATE_LIMIT])]
        simp
      have hres : dispatchLoop now (r :: rest) st d fl =
          (⟨d, fl, (r :: rest).length⟩, st) := by
        rw [dispatchLoop_cons, hc]
        simp
      rw [hres]
      exact ⟨by simp, rfl, by simp, fun j hj => rfl, by simp⟩
    | k + 1 =>
      have hadmit : checkRateLimit st.bucket now =
          (true, some ⟨(k : ℚ), now⟩) := by
        rw [hbucket, checkRateLimit_at_now (k + 1) now hk]
        have hcast : ((k + 1 : Nat) : ℚ) - 1 = (k : ℚ) := by push_cast; ring
        simp [hcast]
      have hres : dispatchLoop now (r :: rest) st d fl =
          dispatchLoop now rest
            (_dispatch_review { st with bucket := some ⟨(k : ℚ), now⟩ } r)
            (d + 1) fl := by
        rw [dispatchLoop_cons, hadmit]
        rfl
      set st1 := _dispatch_review { st with bucket := some ⟨(k : ℚ), now⟩ } r with hst1
      have hb1 : st1.bucket = some ⟨(k : ℚ), now⟩ := rfl
      have hIH := ih k st1 (d + 1) fl hb1 (Nat.le_of_succ_le hk)
        (Nat.lt_of_succ_lt_succ (by simpa using hlen)) hnodup.2
      obtain ⟨ihd, ihf, ihr, ihframe, ihtake⟩ := hIH
      have hstatus1 : ∀ j, statusOf st1.entries j =
          if j = r.id then (statusOf st.entries j).map (fun _ => "DISPATCHED")
          else statusOf st.entries j := by
        intro j
        rw [hst1, statusOf_dispatch]
      refine ⟨?_, ?_, ?_, ?_, ?_⟩
      · rw [hres, ihd]; omega
      · rw [hres, ihf]
      · rw [hres, ihr]
        simp only [List.length_cons]
        omega
      · intro j hj
        rw [List.take_succ_cons, List.map_cons, List.mem_cons] at hj
        push_neg at hj
        rw [hres, ihframe j hj.2, hstatus1 j, if_neg hj.1]
      · intro e he hpend
        rw [List.take_succ_cons, List.mem_cons] at he
        rcases he with rfl | he2
        · have hnotin : e.id ∉ (rest.take k).map (fun x => x.id) := by
            intro hmem
            obtain ⟨x, hx, hxid⟩ := List.mem_map.mp hmem
            exact hnodup.1 (hxid ▸
              List.mem_map_of_mem _ (List.mem_of_mem_take hx))
          rw [hres, ihframe e.id hnotin, hstatus1 e.id, if_pos rfl, hpend]
          rfl
        · have hne : e.id ≠ r.id := by
            intro hEq
            have hmem : e.id ∈ rest.map (fun x => x.id) :=
              List.mem_map_of_mem _ (List.mem_of_mem_take he2)
            exact hnodup.1 (hEq ▸ hmem)
          have hpend1 : statusOf st1.entries e.id = some "PENDING" := by
            rw [hstatus1 e.id, if_neg hne, hpend]
          rw [hres]
          exact ihtake e he2 hpend1

lemma fetch_sets : ∀ (entries : List ReviewQueueEntry) (limit : Nat)
    (e : ReviewQueueEntry), e ∈ _fetch_pending_reviews entries limit →
    e ∈ entries ∧ e.status = "PENDING" := by
  intro entries limit e he
  unfold _fetch_pending_reviews at he
  have h1 := List.mem_of_mem_take he
  have h2 := (List.mergeSort_perm
    (entries.filter (fun e => e.status == "PENDING")) fetchLE).mem_iff.mp h1
  have h3 := List.mem_filter.mp h2
  exact ⟨h3.1, by simpa using h3.2⟩

lemma fetch_length (entries : List ReviewQueueEntry) (limit : Nat)
    (h : limit ≤ (entries.filter (fun e => e.status == "PENDING")).length) :
    (_fetch_pending_reviews entries limit).length = limit := by
  unfold _fetch_pending_reviews
  rw [List.length_take, (List.mergeSort_perm _ fetchLE).length_eq]
  exact Nat.min_eq_left h

lemma fetch_ids_nodup (entries : List ReviewQueueEntry) (limit : Nat)
    (h : (entries.map (fun e => e.id)).Nodup) :
    ((_fetch_pending_reviews entries limit).map (fun e => e.id)).Nodup := by
  unfold _fetch_pending_reviews
  have h1 : ((entries.filter (fun e => e.status == "PENDING")).map
      (fun e => e.id)).Nodup :=
    h.sublist ((List.filter_sublist entries).map _)
  have h2 : (((entries.filter (fun e => e.status == "PENDING")).mergeSort
      fetchLE).map (fun e => e.id)).Nodup :=
    ((List.mergeSort_perm _ fetchLE).map _).nodup_iff.mpr h1
  rw [List.map_take]
  exact h2.sublist (List.take_sublist _ _)

/-- C4: with the token bucket holding k tokens (k within capacity and below
the batch size) and at least batch_size PENDING entries available, one
dispatch cycle dispatches exactly k entries (no failures), the first
rate-limit refusal aborts the cycle, the remaining batch_size - k fetched
entries are reported as rate-limited in the returned stats, and in the final
state the first k fetched entries are DISPATCHED while every remaining
fetched entry is still PENDING. -/
theorem dispatch_cycle_respects_tokens
    (es : List ReviewQueueEntry) (log : List DispatchRecord)
    (k batch : Nat) (now : ℚ)
    (hnodup : (es.map (fun e => e.id)).Nodup)
    (hk : k ≤ REVIEW_RATE_LIMIT)
    (hkb : k < batch)
    (hbatch : batch ≤ (es.filter (fun e => e.status == "PENDING")).length) :
    (dispatch_pending_reviews ⟨es, some ⟨(k : ℚ), now⟩, log⟩ now batch).1 =
      ⟨k, 0, batch - k⟩ ∧
    (∀ e ∈ (_fetch_pending_reviews es batch).take k,
        statusOf (dispatch_pending_reviews ⟨es, some ⟨(k : ℚ), now⟩, log⟩
          now batch).2.entries e.id = some "DISPATCHED") ∧
    (∀ e ∈ (_fetch_pending_reviews es batch).drop k,
        statusOf (dispatch_pending_reviews ⟨es, some ⟨(k : ℚ), now⟩, log⟩
          now batch).2.entries e.id = some "PENDING") := by
  have hlen : (_fetch_pending_reviews es batch).length = batch :=
    fetch_length es batch hbatch
  have hflnodup := fetch_ids_nodup es batch hnodup
  have hne : (_fetch_pending_reviews es batch).isEmpty = false := by
    rw [List.isEmpty_eq_false_iff_exists_mem]
    have : 0 < (_fetch_pending_reviews es batch).length := by omega
    exact List.exists_mem_of_length_pos this
  have hrun : dispatch_pending_reviews ⟨es, some ⟨(k : ℚ), now⟩, log⟩ now batch =
      dispatchLoop now (_fetch_pending_reviews es batch)
        ⟨es, some ⟨(k : ℚ), now⟩, log⟩ 0 0 := by
    show (if (_fetch_pending_reviews es batch).isEmpty then _ else _) = _
    rw [hne]
    simp
  have hpend : ∀ e ∈ _fetch_pending_reviews es batch,
      statusOf es e.id = some "PENDING" := by
    intro e he
    obtain ⟨hmem, hst⟩ := fetch_sets es batch e he
    unfold statusOf
    rw [find?_self_of_nodup es hnodup e hmem]
    simp [hst]
  have hspec := dispatchLoop_spec now (_fetch_pending_reviews es batch) k
    ⟨es, some ⟨(k : ℚ), now⟩, log⟩ 0 0 rfl hk (by omega) hflnodup
  obtain ⟨hd, hf, hr, hframe, htake⟩ := hspec
  refine ⟨?_, ?_, ?_⟩
  · rw [hrun]
    have heta : (dispatchLoop now (_fetch_pending_reviews es batch)
        ⟨es, some ⟨(k : ℚ), now⟩, log⟩ 0 0).1 =
        ⟨(dispatchLoop now (_fetch_pending_reviews es batch)
            ⟨es, some ⟨(k : ℚ), now⟩, log⟩ 0 0).1.dispatched,
         (dispatchLoop now (_fetch_pending_reviews es batch)
            ⟨es, some ⟨(k : ℚ), now⟩, log⟩ 0 0).1.failed,
         (dispatchLoop now (_fetch_pending_reviews es batch)
            ⟨es, some ⟨(k : ℚ), now⟩, log⟩ 0 0).1.rate_limited⟩ := rfl
    rw [heta, hd, hf, hr, hlen]
    simp
  · intro e he
    rw [hrun]
    exact htake e he (hpend e (List.mem_of_mem_take he))
  · intro e he
    have hemem : e ∈ _fetch_pending_reviews es batch := List.mem_of_mem_drop he
    have hsplit : ((_fetch_pending_reviews es batch).take k).map (fun x => x.id) ++
        ((_fetch_pending_reviews es batch).drop k).map (fun x => x.id) =
        (_fetch_pending_reviews es batch).map (fun x => x.id) := by
      rw [← List.map_append, List.take_append_drop]
    have hdisj := (List.nodup_append.mp (hsplit ▸ hflnodup)).2.2
    have hnot : e.id ∉ ((_fetch_pending_reviews es batch).take k).map
        (fun x => x.id) := by
      intro hmem
      exact hdisj hmem (List.mem_map_of_mem _ he)
    rw [hrun, hframe e.id hnot]
    exact hpend e hemem

/-- Two PENDING queue entries used to instantiate the dispatch-cycle theorem. -/
def sampleQueueEntries : List ReviewQueueEntry :=
  [⟨1, "pk1", "b1", "p1", some "t1", "CODE", 5, "PENDING", 0⟩,
   ⟨2, "pk2", "b2", "p1", some "t2", "CODE", 5, "PENDING", 1⟩]

/-- Witness for C4: a cycle over two PENDING entries with one token in the
bucket dispatches exactly one entry and reports one rate-limited entry. -/
theorem dispatch_cycle_respects_tokens_witness :
    ((sampleQueueEntries.map (fun e => e.id)).Nodup ∧
     1 ≤ REVIEW_RATE_LIMIT ∧ 1 < 2 ∧
     2 ≤ (sampleQueueEntries.filter (fun e => e.status == "PENDING")).length) ∧
    ((dispatch_pending_reviews
        ⟨sampleQueueEntries, some ⟨((1 : Nat) : ℚ), 0⟩, []⟩ 0 2).1 =
          ⟨1, 0, 2 - 1⟩ ∧
     (∀ e ∈ (_fetch_pending_reviews sampleQueueEntries 2).take 1,
        statusOf (dispatch_pending_reviews
          ⟨sampleQueueEntries, some ⟨((1 : Nat) : ℚ), 0⟩, []⟩ 0 2).2.entries e.id =
            some "DISPATCHED") ∧
     (∀ e ∈ (_fetch_pending_reviews sampleQueueEntries 2).drop 1,
        statusOf (dispatch_pending_reviews
          ⟨sampleQueueEntries, some ⟨((1 : Nat) : ℚ), 0⟩, []⟩ 0 2).2.entries e.id =
            some "PENDING")) :=
  ⟨⟨by decide, by decide, by decide, by decide⟩,
   dispatch_cycle_respects_tokens sampleQueueEntries [] 1 2 0
     (by decide) (by decide) (by decide) (by decide)⟩

/-! ## Builds and the approval gate
(src/app/mcp/server.py lines 612-689, src/app/config.py line 50)

ralph_builds rows; `build_id` is globally unique (enforced by the schema) and
serves as the row key in place of the uuid primary key.  `iteration_logs`,
audit timestamps and free-text response fields that no modelled operation
reads are elided. -/

structure Build where
  build_id : String
  project_id : String
  build_type : String
  task_id : Option String
  task_description : Option String
  plan_build_id : Option String
  commit_sha : String
  branch : String
  changed_files : Option (List String)
  diff_unified : Option String
  diff_source : String
  builder_signal : String
  inspection_status : String
  iteration_count : Nat
  requires_human_approval : Bool
  approval_reason : Option String
  human_approved_by : Option String
deriving DecidableEq, Repr

/-- Settings.MAX_ITERATIONS from src/app/config.py (default 3); the approval
handler hardcodes the same value 3. -/
def MAX_ITERATIONS : Nat := 3

/-- SELECT * FROM ralph_builds WHERE build_id = $1. -/
def findBuild (builds : List Build) (bid : String) : Option Build :=
  builds.find? (fun b => b.build_id == bid)

def builderSignalOf (builds : List Build) (bid : String) : Option String :=
  (findBuild builds bid).map (fun b => b.builder_signal)

def inspectionStatusOf (builds : List Build) (bid : String) : Option String :=
  (findBuild builds bid).map (fun b => b.inspection_status)

def humanApprovedByOf (builds : List Build) (bid : String) :
    Option (Option String) :=
  (findBuild builds bid).map (fun b => b.human_approved_by)

def iterationCountOf (builds : List Build) (bid : String) : Option Nat :=
  (findBuild builds bid).map (fun b => b.iteration_count)

/-- UPDATE ralph_builds SET human_approved_by = $1 WHERE id = $2. -/
def setHumanApprover (builds : List Build) (bid : String)
    (who : Option String) : List Build :=
  builds.map (fun b =>
    if b.build_id == bid then { b with human_approved_by := who } else b)

/-- UPDATE ralph_builds SET builder_signal = DEPLOYED WHERE id = $1. -/
def setDeployed (builds : List Build) (bid : String) : List Build :=
  builds.map (fun b =>
    if b.build_id == bid then { b with builder_signal := "DEPLOYED" } else b)

/-- Result dictionary of handle_approve_build; on success `status` is
"approved", on failure `error` carries the error message. -/
structure ApproveResult where
  status : Option String
  error : Option String
  human_approved_by : Option String
deriving DecidableEq, Repr

/-- handle_approve_build from src/app/mcp/server.py lines 612-689, in source
order: not-found, inspection gate, human-approval gate (the approver is
recorded as soon as it is supplied and required, before the iteration check),
iteration limit (hardcoded 3), then the DEPLOYED transition. -/
def handle_approve_build (builds : List Build) (build_id : String)
    (notes human_approved_by : Option String) : ApproveResult × List Build :=
  match findBuild builds build_id with
  | none => (⟨none, some ("Build " ++ build_id ++ " not found"), none⟩, builds)
  | some build =>
    if build.inspection_status ≠ "PASSED" then
      (⟨none, some "Cannot approve build without passing inspection", none⟩, builds)
    else if build.requires_human_approval && !(strTruthy human_approved_by) then
      (⟨none, some "Build requires human approval", none⟩, builds)
    else
      let builds1 :=
        if build.requires_human_approval then
          setHumanApprover builds build.build_id human_approved_by
        else builds
      if 3 ≤ build.iteration_count then
        (⟨none, some "Max iteration limit (3) reached", none⟩, builds1)
      else
        (⟨some "approved", none,
          if build.requires_human_approval then human_approved_by else none⟩,
         setDeployed builds1 build.build_id)

/-! ## Theorems for claims C5, C6, C7 -/

lemma find?_bid_map (builds : List Build) (f : Build → Build)
    (hf : ∀ b, (f b).build_id = b.build_id) (p : String) :
    (builds.map f).find? (fun b => b.build_id == p) =
      (builds.find? (fun b => b.build_id == p)).map f := by
  induction builds with
  | nil => rfl
  | cons a l ih =>
    rw [List.map_cons, List.find?_cons, List.find?_cons, hf a]
    cases ha : (a.build_id == p) <;> simp [ha, ih]

lemma findBuild_setHumanApprover (builds : List Build) (bid : String)
    (who : Option String) (j : String) :
    findBuild (setHumanApprover builds bid who) j =
      (findBuild builds j).map (fun b =>
        if b.build_id == bid then { b with human_approved_by := who } else b) := by
  unfold findBuild setHumanApprover
  exact find?_bid_map _ _
    (fun b => by by_cases h : (b.build_id == bid) = true <;> simp [h]) j

lemma findBuild_setDeployed (builds : List Build) (bid : String) (j : String) :
    findBuild (setDeployed builds bid) j =
      (findBuild builds j).map (fun b =>
        if b.build_id == bid then { b with builder_signal := "DEPLOYED" } else b) := by
  unfold findBuild setDeployed
  exact find?_bid_map _ _
    (fun b => by by_cases h : (b.build_id == bid) = true <;> simp [h]) j

lemma builderSignalOf_setHumanApprover (builds : List Build) (bid : String)
    (who : Option String) (j : String) :
    builderSignalOf (setHumanApprover builds bid who) j =
      builderSignalOf builds j := by
  unfold builderSignalOf
  rw [findBuild_setHumanApprover]
  cases h : findBuild builds j with
  | none => rfl
  | some b => by_cases hb : b.build_id = bid <;> simp [hb]

/-- C6: on a build whose inspection status is not PASSED (e.g. FAILED),
approve_build always fails with the inspection error, the store is unchanged,
and in particular builder_signal is never mutated. -/
theorem approve_build_requires_passed
    (builds : List Build) (bid : String) (notes approver : Option String)
    (b : Build) (hfind : findBuild builds bid = some b)
    (hne : b.inspection_status ≠ "PASSED") :
    (handle_approve_build builds bid notes approver).1.status ≠ some "approved" ∧
    (handle_approve_build builds bid notes approver).1.error =
      some "Cannot approve build without passing inspection" ∧
    (handle_approve_build builds bid notes approver).2 = builds ∧
    builderSignalOf (handle_approve_build builds bid notes approver).2 bid =
      builderSignalOf builds bid := by
  unfold handle_approve_build
  rw [hfind]
  simp [hne]

/-- A FAILED-inspection build used to instantiate the approval-gate theorems. -/
def failedBuild : Build :=
  { build_id := "b1", project_id := "p1", build_type := "CODE",
    task_id := some "t1", task_description := none, plan_build_id := none,
    commit_sha := "c0ffee1", branch := "main", changed_files := none,
    diff_unified := none, diff_source := "agent",
    builder_signal := "READY_FOR_REVIEW", inspection_status := "FAILED",
    iteration_count := 1, requires_human_approval := false,
    approval_reason := none, human_approved_by := none }

/-- Witness for C6 at a concrete FAILED build. -/
theorem approve_build_requires_passed_witness :
    (findBuild [failedBuild] "b1" = some failedBuild ∧
     failedBuild.inspection_status ≠ "PASSED") ∧
    ((handle_approve_build [failedBuild] "b1" none none).1.status ≠ some "approved" ∧
     (handle_approve_build [failedBuild] "b1" none none).1.error =
       some "Cannot approve build without passing inspection" ∧
     (handle_approve_build [failedBuild] "b1" none none).2 = [failedBuild] ∧
     builderSignalOf (handle_approve_build [failedBuild] "b1" none none).2 "b1" =
       builderSignalOf [failedBuild] "b1") :=
  ⟨⟨by decide, by decide⟩,
   approve_build_requires_passed [failedBuild] "b1" none none failedBuild
     (by decide) (by decide)⟩

lemma handle_approve_build_success_eq (builds : List Build) (bid : String)
    (notes approver : Option String) (b : Build)
    (hfind : findBuild builds bid = some b)
    (hpass : b.inspection_status = "PASSED")
    (hok : b.requires_human_approval = true → strTruthy approver = true)
    (hiter : b.iteration_count < 3) :
    handle_approve_build builds bid notes approver =
      (⟨some "approved", none,
        if b.requires_human_approval then approver else none⟩,
       setDeployed
         (if b.requires_human_approval then
            setHumanApprover builds b.build_id approver
          else builds) b.build_id) := by
  unfold handle_approve_build
  rw [hfind]
  have h2 : (b.requires_human_approval && !(strTruthy approver)) = false := by
    cases hr : b.requires_human_approval
    · simp
    · simp [hok hr]
  have h3 : ¬ 3 ≤ b.iteration_count := by omega
  simp [hpass, h2, h3]

/-- C5: approve_build succeeds exactly when the build exists, its inspection
status is PASSED, a truthy (non-empty) approver is supplied whenever human
approval is required, and iteration_count is below the configured maximum
(3); on success builder_signal becomes DEPLOYED, the approver identity is
recorded when approval was required, and iteration_count is unchanged and
hence within the configured maximum. -/
theorem approve_build_success_conditions :
    (∀ (builds : List Build) (bid : String) (notes approver : Option String),
        findBuild builds bid = none →
        (handle_approve_build builds bid notes approver).1.status ≠ some "approved") ∧
    (∀ (builds : List Build) (bid : String) (notes approver : Option String)
        (b : Build), findBuild builds bid = some b →
        (((handle_approve_build builds bid notes approver).1.status = some "approved") ↔
          (b.inspection_status = "PASSED" ∧
           (b.requires_human_approval = true → strTruthy approver = true) ∧
           b.iteration_count < MAX_ITERATIONS)) ∧
        ((handle_approve_build builds bid notes approver).1.status = some "approved" →
          builderSignalOf (handle_approve_build builds bid notes approver).2 bid =
            some "DEPLOYED" ∧
          (b.requires_human_approval = true →
            humanApprovedByOf (handle_approve_build builds bid notes approver).2 bid =
              some approver) ∧
          iterationCountOf (handle_approve_build builds bid notes approver).2 bid =
            some b.iteration_count ∧
          b.iteration_count ≤ MAX_ITERATIONS)) := by
  constructor
  · intro builds bid notes approver hnone
    unfold handle_approve_build
    rw [hnone]
    simp
  · intro builds bid notes approver b hfind
    have hbid : b.build_id = bid := by simpa using List.find?_some hfind
    by_cases hpass : b.inspection_status = "PASSED"
    case neg =>
      unfold handle_approve_build
      rw [hfind]
      simp [hpass]
    case pos =>
      by_cases hok : b.requires_human_approval = true → strTruthy approver = true
      case neg =>
        push_neg at hok
        obtain ⟨hreq, htr⟩ := hok
        have h2 : (b.requires_human_approval && !(strTruthy approver)) = true := by
          simp [hreq, htr]
        unfold handle_approve_build
        rw [hfind]
        simp [hpass, h2, hreq, htr]
      case pos =>
        by_cases hiter : b.iteration_count < 3
        case neg =>
          have h3 : 3 ≤ b.iteration_count := by omega
          have h2 : (b.requires_human_approval && !(strTruthy approver)) = false := by
            cases hr : b.requires_human_approval
            · simp
            · simp [hok hr]
          unfold handle_approve_build
          rw [hfind]
          simp [hpass, h2, h3, MAX_ITERATIONS]
        case pos =>
          rw [handle_approve_build_success_eq builds bid notes approver b
            hfind hpass hok hiter]
          have hfind1 : findBuild
              (if b.requires_human_approval then
                setHumanApprover builds b.build_id approver
              else builds) bid =
              some (if b.requires_human_approval then
                { b with human_approved_by := approver } else b) := by
            cases hr : b.requires_human_approval
            · simp [hr, hfind]
            · simp only [hr, if_true]
              rw [findBuild_setHumanApprover, hfind]
              simp [hbid, hr]
          have hfind2 : findBuild
              (setDeployed
                (if b.requires_human_approval then
                  setHumanApprover builds b.build_id approver
                else builds) b.build_id) bid =
              some { (if b.requires_human_approval then
                  { b with human_approved_by := approver } else b) with
                builder_signal := "DEPLOYED" } := by
            rw [findBuild_setDeployed, hfind1]
            cases hr : b.requires_human_approval <;> simp [hr]
          constructor
          · constructor
            · intro _
              exact ⟨hpass, hok, hiter⟩
            · intro _
              rfl
          · intro _
            refine ⟨?_, ?_, ?_, ?_⟩
            · unfold builderSignalOf
              rw [hfind2]
              cases hr : b.requires_human_approval <;> simp [hr]
            · intro hreq
              unfold humanApprovedByOf
              rw [hfind2]
              simp [hreq]
            · unfold iterationCountOf
              rw [hfind2]
              cases hr : b.requires_human_approval <;> simp [hr]
            · exact Nat.le_of_lt hiter

/-- A PASSED build that requires human approval, one iteration, used to
instantiate the approval-success theorem. -/
def passedBuild : Build :=
  { build_id := "b2", project_id := "p1", build_type := "CODE",
    task_id := some "t1", task_description := none, plan_build_id := none,
    commit_sha := "c0ffee2", branch := "main", changed_files := none,
    diff_unified := none, diff_source := "agent",
    builder_signal := "READY_FOR_REVIEW", inspection_status := "PASSED",
    iteration_count := 1, requires_human_approval := true,
    approval_reason := some "Protected area: backend/app/core/security",
    human_approved_by := none }

/-- Witness for C5 at a concrete PASSED build requiring human approval. -/
theorem approve_build_success_conditions_witness :
    (findBuild [passedBuild] "b2" = some passedBuild) ∧
    ((((handle_approve_build [passedBuild] "b2" none (some "alice")).1.status =
          some "approved") ↔
        (passedBuild.inspection_status = "PASSED" ∧
         (passedBuild.requires_human_approval = true →
           strTruthy (some "alice") = true) ∧
         passedBuild.iteration_count < MAX_ITERATIONS)) ∧
     ((handle_approve_build [passedBuild] "b2" none (some "alice")).1.status =
          some "approved" →
        builderSignalOf
            (handle_approve_build [passedBuild] "b2" none (some "alice")).2 "b2" =
          some "DEPLOYED" ∧
        (passedBuild.requires_human_approval = true →
          humanApprovedByOf
              (handle_approve_build [passedBuild] "b2" none (some "alice")).2 "b2" =
            some (some "alice")) ∧
        iterationCountOf
            (handle_approve_build [passedBuild] "b2" none (some "alice")).2 "b2" =
          some passedBuild.iteration_count ∧
        passedBuild.iteration_count ≤ MAX_ITERATIONS)) :=
  ⟨by decide,
   approve_build_success_conditions.2 [passedBuild] "b2" none (some "alice")
     passedBuild (by decide)⟩

/-- A PASSED build requiring human approval whose iteration limit is already
reached: the guardrail-violation input for the approval gate. -/
def guardrailBuild : Build :=
  { build_id := "b3", project_id := "p1", build_type := "CODE",
    task_id := some "t1", task_description := none, plan_build_id := none,
    commit_sha := "c0ffee3", branch := "main", changed_files := none,
    diff_unified := none, diff_source := "agent",
    builder_signal := "READY_FOR_REVIEW", inspection_status := "PASSED",
    iteration_count := 3, requires_human_approval := true,
    approval_reason := some "Protected area: backend/app/core/security",
    human_approved_by := none }

/-- Counterexample for C7: on a build requiring (and supplied with) human
approval whose iteration count is at the maximum, approve_build fails with
the iteration-limit guardrail error, yet the failed call has mutated the
build: human_approved_by went from none to the supplied approver, so the
record is not left entirely unchanged. -/
theorem approve_build_guardrail_mutates_counterexample :
    (handle_approve_build [guardrailBuild] "b3" none (some "alice")).1.status ≠
      some "approved" ∧
    (handle_approve_build [guardrailBuild] "b3" none (some "alice")).1.error =
      some "Max iteration limit (3) reached" ∧
    humanApprovedByOf [guardrailBuild] "b3" = some none ∧
    humanApprovedByOf
        (handle_approve_build [guardrailBuild] "b3" none (some "alice")).2 "b3" =
      some (some "alice") ∧
    (handle_approve_build [guardrailBuild] "b3" none (some "alice")).2 ≠
      [guardrailBuild] := by
  decide

/-- C7 (amended): a guardrail-violation failure of approve_build blocks the
transition and never mutates builder_signal; a missing-approver failure
leaves the store entirely unchanged; but an iteration-limit failure on a
build that requires and is supplied human approval has already recorded
human_approved_by, leaving the store equal to the approver update (and
unchanged when approval was not required). -/
theorem approve_build_guardrail_fails_closed
    (builds : List Build) (bid : String) (notes approver : Option String)
    (b : Build) (hfind : findBuild builds bid = some b)
    (hpass : b.inspection_status = "PASSED") :
    (b.requires_human_approval = true → strTruthy approver = false →
      (handle_approve_build builds bid notes approver).1.error =
        some "Build requires human approval" ∧
      (handle_approve_build builds bid notes approver).2 = builds) ∧
    (b.requires_human_approval = true → strTruthy approver = true →
      MAX_ITERATIONS ≤ b.iteration_count →
      (handle_approve_build builds bid notes approver).1.status ≠ some "approved" ∧
      (handle_approve_build builds bid notes approver).1.error =
        some "Max iteration limit (3) reached" ∧
      (∀ j, builderSignalOf (handle_approve_build builds bid notes approver).2 j =
        builderSignalOf builds j) ∧
      (handle_approve_build builds bid notes approver).2 =
        setHumanApprover builds b.build_id approver) ∧
    (b.requires_human_approval = false →
      MAX_ITERATIONS ≤ b.iteration_count →
      (handle_approve_build builds bid notes approver).1.status ≠ some "approved" ∧
      (handle_approve_build builds bid notes approver).1.error =
        some "Max iteration limit (3) reached" ∧
      (handle_approve_build builds bid notes approver).2 = builds) := by
  refine ⟨?_, ?_, ?_⟩
  · intro hreq htr
    have h2 : (b.requires_human_approval && !(strTruthy approver)) = true := by
      simp [hreq, htr]
    unfold handle_approve_build
    rw [hfind]
    simp [hpass, h2]
  · intro hreq htr hiter
    have h2 : (b.requires_human_approval && !(strTruthy approver)) = false := by
      simp [hreq, htr]
    have h3 : 3 ≤ b.iteration_count := by
      simpa [MAX_ITERATIONS] using hiter
    have hres : handle_approve_build builds bid notes approver =
        (⟨none, some "Max iteration limit (3) reached", none⟩,
         setHumanApprover builds b.build_id approver) := by
      unfold handle_approve_build
      rw [hfind]
      simp [hpass, h2, h3, hreq, htr]
    rw [hres]
    refine ⟨by simp, rfl, ?_, rfl⟩
    intro j
    exact builderSignalOf_setHumanApprover builds b.build_id approver j
  · intro hreq hiter
    have h2 : (b.requires_human_approval && !(strTruthy approver)) = false := by
      simp [hreq]
    have h3 : 3 ≤ b.iteration_count := by
      simpa [MAX_ITERATIONS] using hiter
    unfold handle_approve_build
    rw [hfind]
    simp [hpass, h2, h3, hreq]

/-- Witness for the amended C7 at the concrete guardrail build. -/
theorem approve_build_guardrail_fails_closed_witness :
    (findBuild [guardrailBuild] "b3" = some guardrailBuild ∧
     guardrailBuild.inspection_status = "PASSED") ∧
    ((guardrailBuild.requires_human_approval = true →
        strTruthy (some "alice") = false →
        (handle_approve_build [guardrailBuild] "b3" none (some "alice")).1.error =
          some "Build requires human approval" ∧
        (handle_approve_build [guardrailBuild] "b3" none (some "alice")).2 =
          [guardrailBuild]) ∧
     (guardrailBuild.requires_human_approval = true →
        strTruthy (some "alice") = true →
        MAX_ITERATIONS ≤ guardrailBuild.iteration_count →
        (handle_approve_build [guardrailBuild] "b3" none (some "alice")).1.status ≠
          some "approved" ∧
        (handle_approve_build [guardrailBuild] "b3" none (some "alice")).1.error =
          some "Max iteration limit (3) reached" ∧
        (∀ j, builderSignalOf
            (handle_approve_build [guardrailBuild] "b3" none (some "alice")).2 j =
          builderSignalOf [guardrailBuild] j) ∧
        (handle_approve_build [guardrailBuild] "b3" none (some "alice")).2 =
          setHumanApprover [guardrailBuild] guardrailBuild.build_id (some "alice")) ∧
     (guardrailBuild.requires_human_approval = false →
        MAX_ITERATIONS ≤ guardrailBuild.iteration_count →
        (handle_approve_build [guardrailBuild] "b3" none (some "alice")).1.status ≠
          some "approved" ∧
        (handle_approve_build [guardrailBuild] "b3" none (some "alice")).1.error =
          some "Max iteration limit (3) reached" ∧
        (handle_approve_build [guardrailBuild] "b3" none (some "alice")).2 =
          [guardrailBuild])) :=
  ⟨⟨by decide, by decide⟩,
   approve_build_guardrail_fails_closed [guardrailBuild] "b3" none (some "alice")
     guardrailBuild (by decide) (by decide)⟩

/-! ## Inspection ledger and handle_submit_inspection
(src/app/mcp/server.py lines 453-540, src/app/models/review.py lines 111-133)

ralph_inspections rows; the uuid primary key is modelled as a Nat counter and
`build_pk` by the globally-unique build_id.  `raw_response` (always NULL in
the handler) is elided.  The inspector model is the hardcoded constant. -/

structure Issue where
  severity : String
  file : Option String
  line : Option Int
  description : String
deriving DecidableEq, Repr

structure Inspection where
  id : Nat
  build_pk : String
  build_id : String
  inspector_model : String
  passed : Bool
  issues : List Issue
  suggestions : Option String
  confidence : Option ℚ
deriving DecidableEq, Repr

structure InspectState where
  builds : List Build
  inspections : List Inspection
  next_inspection_id : Nat
deriving DecidableEq, Repr

/-- Result dictionary of handle_submit_inspection. -/
structure SubmitResult where
  status : Option String
  error : Option String
  inspection_id : Option Nat
  passed : Option Bool
  issues_count : Option Nat
  inspection_status : Option String
deriving DecidableEq, Repr

/-- The hardcoded default inspector model of the MCP handlers. -/
def inspector_model : String := "gpt-5.2"

/-- UPDATE ralph_builds SET inspection_status = $1 WHERE id = $2. -/
def setInspectionStatus (builds : List Build) (bid : String) (s : String) :
    List Build :=
  builds.map (fun b =>
    if b.build_id == bid then { b with inspection_status := s } else b)

/-- handle_submit_inspection from src/app/mcp/server.py lines 453-540:
not-found check, idempotency lookup keyed on (build_pk, inspector_model)
returning the stored verdict unchanged, else insert the new Inspection and
set the Build inspection_status to PASSED or FAILED. -/
def handle_submit_inspection (st : InspectState) (build_id : String)
    (passed : Bool) (issues : List Issue) (suggestions : Option String)
    (confidence : Option ℚ) : SubmitResult × InspectState :=
  match findBuild st.builds build_id with
  | none =>
    (⟨none, some ("Build " ++ build_id ++ " not found"), none, none, none, none⟩, st)
  | some build =>
    match st.inspections.find? (fun i =>
        i.build_pk == build.build_id && i.inspector_model == inspector_model) with
    | some existing =>
      (⟨some "already_submitted", none, some existing.id, some existing.passed,
        none, none⟩, st)
    | none =>
      let new_status := if passed then "PASSED" else "FAILED"
      (⟨some "submitted", none, some st.next_inspection_id, some passed,
        some issues.length, some new_status⟩,
       { builds := setInspectionStatus st.builds build.build_id new_status,
         inspections := st.inspections ++
           [⟨st.next_inspection_id, build.build_id, build_id, inspector_model,
             passed, issues, suggestions, confidence⟩],
         next_inspection_id := st.next_inspection_id + 1 })

/-! ## Theorems for claim C2 -/

lemma findBuild_setInspectionStatus (builds : List Build) (bid s : String)
    (j : String) :
    findBuild (setInspectionStatus builds bid s) j =
      (findBuild builds j).map (fun b =>
        if b.build_id == bid then { b with inspection_status := s } else b) := by
  unfold findBuild setInspectionStatus
  exact find?_bid_map _ _
    (fun b => by by_cases h : (b.build_id == bid) = true <;> simp [h]) j

/-- C2: on a build with no prior inspection, submitting a verdict and then
submitting again for the same build and inspector — with any second payload —
leaves the whole store exactly as after the first call (no new Inspection, no
overwrite), returns status already_submitted carrying the first stored
verdict, and the Build keeps the inspection_status the first submission set. -/
theorem submit_inspection_idempotent
    (st : InspectState) (bid : String) (p1 : Bool) (is1 : List Issue)
    (sg1 : Option String) (cf1 : Option ℚ) (p2 : Bool) (is2 : List Issue)
    (sg2 : Option String) (cf2 : Option ℚ) (b : Build)
    (hfind : findBuild st.builds bid = some b)
    (hnoins : st.inspections.find? (fun i =>
      i.build_pk == b.build_id && i.inspector_model == inspector_model) = none) :
    (handle_submit_inspection
        (handle_submit_inspection st bid p1 is1 sg1 cf1).2 bid p2 is2 sg2 cf2).2 =
      (handle_submit_inspection st bid p1 is1 sg1 cf1).2 ∧
    (handle_submit_inspection
        (handle_submit_inspection st bid p1 is1 sg1 cf1).2 bid p2 is2 sg2 cf2).1.status =
      some "already_submitted" ∧
    (handle_submit_inspection
        (handle_submit_inspection st bid p1 is1 sg1 cf1).2 bid p2 is2 sg2 cf2).1.passed =
      some p1 ∧
    inspectionStatusOf
        (handle_submit_inspection st bid p1 is1 sg1 cf1).2.builds bid =
      some (if p1 then "PASSED" else "FAILED") ∧
    (handle_submit_inspection st bid p1 is1 sg1 cf1).2.inspections.length =
      st.inspections.length + 1 := by
  have hres1 : handle_submit_inspection st bid p1 is1 sg1 cf1 =
      (⟨some "submitted", none, some st.next_inspection_id, some p1,
        some is1.length, some (if p1 then "PASSED" else "FAILED")⟩,
       { builds := setInspectionStatus st.builds b.build_id
           (if p1 then "PASSED" else "FAILED"),
         inspections := st.inspections ++
           [⟨st.next_inspection_id, b.build_id, bid, inspector_model,
             p1, is1, sg1, cf1⟩],
         next_inspection_id := st.next_inspection_id + 1 }) := by
    unfold handle_submit_inspection
    rw [hfind]
    dsimp only
    rw [hnoins]
  have hbid : b.build_id = bid := by simpa using List.find?_some hfind
  have hb1 : findBuild (setInspectionStatus st.builds b.build_id
      (if p1 then "PASSED" else "FAILED")) bid =
      some { b with inspection_status := (if p1 then "PASSED" else "FAILED") } := by
    rw [findBuild_setInspectionStatus, hfind]
    simp
  have hfind2 : (st.inspections ++
      [({ id := st.next_inspection_id, build_pk := b.build_id, build_id := bid,
          inspector_model := inspector_model, passed := p1, issues := is1,
          suggestions := sg1, confidence := cf1 } : Inspection)]).find? (fun i =>
      i.build_pk == b.build_id && i.inspector_model == inspector_model) =
      some ({ id := st.next_inspection_id, build_pk := b.build_id,
              build_id := bid, inspector_model := inspector_model,
              passed := p1, issues := is1,
              suggestions := sg1, confidence := cf1 } : Inspection) := by
    rw [List.find?_append, hnoins]
    simp
  have hres2 : handle_submit_inspection
      (handle_submit_inspection st bid p1 is1 sg1 cf1).2 bid p2 is2 sg2 cf2 =
      (⟨some "already_submitted", none, some st.next_inspection_id, some p1,
        none, none⟩,
       (handle_submit_inspection st bid p1 is1 sg1 cf1).2) := by
    rw [hres1]
    unfold handle_submit_inspection
    rw [hb1]
    dsimp only
    rw [hfind2]
  refine ⟨?_, ?_, ?_, ?_, ?_⟩
  · rw [hres2]
  · rw [hres2]
  · rw [hres2]
  · rw [hres1]
    unfold inspectionStatusOf
    rw [hb1]
    simp
  · rw [hres1]
    simp

/-- A PENDING build with no inspection yet, used to instantiate the
idempotency theorem. -/
def inspBuild : Build :=
  { build_id := "b4", project_id := "p1", build_type := "CODE",
    task_id := some "t1", task_description := none, plan_build_id := none,
    commit_sha := "c0ffee4", branch := "main", changed_files := none,
    diff_unified := none, diff_source := "agent",
    builder_signal := "READY_FOR_REVIEW", inspection_status := "PENDING",
    iteration_count := 1, requires_human_approval := false,
    approval_reason := none, human_approved_by := none }

def inspState : InspectState := ⟨[inspBuild], [], 0⟩

/-- Witness for C2: submit passed=true then passed=false for the same build;
the second call returns the first verdict and changes nothing. -/
theorem submit_inspection_idempotent_witness :
    (findBuild inspState.builds "b4" = some inspBuild ∧
     inspState.inspections.find? (fun i =>
       i.build_pk == inspBuild.build_id &&
         i.inspector_model == inspector_model) = none) ∧
    ((handle_submit_inspection
        (handle_submit_inspection inspState "b4" true [] none none).2
        "b4" false [] none none).2 =
      (handle_submit_inspection inspState "b4" true [] none none).2 ∧
     (handle_submit_inspection
        (handle_submit_inspection inspState "b4" true [] none none).2
        "b4" false [] none none).1.status = some "already_submitted" ∧
     (handle_submit_inspection
        (handle_submit_inspection inspState "b4" true [] none none).2
        "b4" false [] none none).1.passed = some true ∧
     inspectionStatusOf
        (handle_submit_inspection inspState "b4" true [] none none).2.builds "b4" =
       some (if true then "PASSED" else "FAILED") ∧
     (handle_submit_inspection inspState "b4" true [] none none).2.inspections.length =
       inspState.inspections.length + 1) :=
  ⟨⟨by decide, by decide⟩,
   submit_inspection_idempotent inspState "b4" true [] none none false [] none none
     inspBuild (by decide) (by decide)⟩

/-! ## Build ingestion
(src/app/api/builds.py lines 28-271)

`ingest_build` builds the `build_id` from the timestamp and the first seven
characters of the commit sha, evaluates the guardrails, INSERTs the Build row
with inspection_status PENDING and iteration_count 1, and answers with
`review_queued` set iff builder_signal is READY_FOR_REVIEW.  The outbound
chat notification is an external collaborator and is not modelled.  JSON
blob fields that no modelled operation reads (review_bundle, coverage,
builder_notes, test/lint commands and output tails) are elided from the
artifact.  Crucially, the endpoint body contains no call to enqueue_review,
so the review queue of the store is returned untouched. -/

structure BuildArtifact where
  project_id : String
  build_type : String
  task_id : Option String
  task_description : Option String
  plan_build_id : Option String
  commit_sha : String
  branch : String
  changed_files : Option (List String)
  diff_unified : Option String
  diff_source : String
  builder_signal : String
deriving DecidableEq, Repr

structure BuildIngestResponse where
  status : String
  build_id : String
  inspection_status : String
  review_queued : Bool
  requires_human_approval : Bool
  approval_reason : Option String
deriving DecidableEq, Repr

structure IngestState where
  builds : List Build
  queue : List ReviewQueueEntry
deriving DecidableEq, Repr

/-- ingest_build from src/app/api/builds.py lines 152-271; `timestamp` stands
for datetime.now().isoformat(). -/
def ingest_build (st : IngestState) (artifact : BuildArtifact)
    (timestamp : String) : BuildIngestResponse × IngestState :=
  let short_sha :=
    if artifact.commit_sha.isEmpty then "unknown"
    else String.mk (artifact.commit_sha.toList.take 7)
  let build_id := timestamp ++ "-" ++ short_sha
  let ra := check_requires_approval artifact.changed_files artifact.diff_unified
  let newBuild : Build :=
    { build_id := build_id, project_id := artifact.project_id,
      build_type := artifact.build_type, task_id := artifact.task_id,
      task_description := artifact.task_description,
      plan_build_id := artifact.plan_build_id,
      commit_sha := artifact.commit_sha, branch := artifact.branch,
      changed_files := artifact.changed_files,
      diff_unified := artifact.diff_unified,
      diff_source := artifact.diff_source,
      builder_signal := artifact.builder_signal,
      inspection_status := "PENDING", iteration_count := 1,
      requires_human_approval := ra.1, approval_reason := ra.2,
      human_approved_by := none }
  (⟨"ingested", build_id, "PENDING",
    artifact.builder_signal == "READY_FOR_REVIEW", ra.1, ra.2⟩,
   ⟨st.builds ++ [newBuild], st.queue⟩)

/-! ## Theorems for claim C3 -/

/-- A READY_FOR_REVIEW build artifact. -/
def readyArtifact : BuildArtifact :=
  { project_id := "p1", build_type := "CODE", task_id := some "t1",
    task_description := none, plan_build_id := none,
    commit_sha := "abc123def", branch := "main",
    changed_files := some ["backend/app/api/users.py"], diff_unified := none,
    diff_source := "agent", builder_signal := "READY_FOR_REVIEW" }

/-- C3 fails on the code: ingest_build never inserts a review-queue row.  For
every store, artifact and timestamp the queue after ingestion equals the
queue before; concretely, ingesting a READY_FOR_REVIEW artifact into an empty
store creates the Build and answers review_queued = true, yet the review
queue stays empty, so no PENDING ReviewQueueEntry referencing the build
exists. -/
theorem ingest_build_does_not_enqueue :
    (∀ (st : IngestState) (a : BuildArtifact) (ts : String),
        (ingest_build st a ts).2.queue = st.queue) ∧
    (ingest_build ⟨[], []⟩ readyArtifact "2026-01-11T10:00:00").1.review_queued =
      true ∧
    (ingest_build ⟨[], []⟩ readyArtifact "2026-01-11T10:00:00").2.queue = [] ∧
    (ingest_build ⟨[], []⟩ readyArtifact "2026-01-11T10:00:00").2.builds.length = 1 := by
  refine ⟨fun st a ts => rfl, by decide, rfl, rfl⟩

end RalphLoop
